import Mathlib

/-!
Shallow embedding of `src/app.py` (a Streamlit image-to-text tool) and
proofs about its claims.

External libraries (PIL, the Anthropic HTTP client, python-docx,
Streamlit) are not part of the repository; they are modelled
parametrically: the JPEG encoder, the image opener and the remote API
are function parameters, so every theorem quantifies over all possible
behaviours of those libraries.  Byte strings are `List Nat`, images are
their pixel dimensions (the only image attribute the code inspects).
-/

set_option autoImplicit false

namespace ClaudeOCR

/-- A decoded in-memory image.  `optimise_image` only ever reads the
`size` attribute `(w, h)` of a PIL image, so the model keeps just the
two dimensions (the mode conversion to RGB does not change them). -/
structure Img where
  width : Nat
  height : Nat
deriving DecidableEq, Repr

/-- The byte budget `5 * 1024 * 1024` from `optimise_image`. -/
def target : Nat := 5 * 1024 * 1024

/-- The dimension cap `max_dim = 4096` from `optimise_image`. -/
def max_dim : Nat := 4096

/-- The one-time resize step of `optimise_image` (lines 125-135 of
`src/app.py`): if either dimension exceeds 4096, the larger dimension
becomes 4096 and the smaller one is scaled proportionally, the scaled
value truncated to an integer.  Python computes
`int(h * (max_dim / w))` with float division followed by `int`
truncation; the model uses the exact truncated quotient
`h * max_dim / w` in natural numbers. -/
def capDim (img : Img) : Img :=
  if img.width > max_dim ∨ img.height > max_dim then
    if img.width ≥ img.height then
      { width := max_dim, height := img.height * max_dim / img.width }
    else
      { width := img.width * max_dim / img.height, height := max_dim }
  else img

/-- The quality-lowering loop of `optimise_image` (lines 143-149 of
`src/app.py`):

    while size_bytes > 5 * 1024 * 1024 and quality >= 75:
        buf = io.BytesIO()
        img.save(buf, format="JPEG", optimize=True, quality=quality)
        size_bytes = buf.tell()
        quality -= 5

`enc q` is the byte string produced by `img.save` at quality `q` for
the fixed image of the surrounding call.  The result pairs the final
buffer with the number of iterations of the loop body. -/
def qualityLoop (enc : Nat → List Nat) (buf : List Nat) (quality : Nat) :
    List Nat × Nat :=
  if h : buf.length > target ∧ 75 ≤ quality then
    let buf2 := enc quality
    let p := qualityLoop enc buf2 (quality - 5)
    (p.1, p.2 + 1)
  else
    (buf, 0)
termination_by quality
decreasing_by omega

/-- The body of `optimise_image` after the image has been opened and
converted to RGB: cap the dimensions at 4096, encode at quality 95,
and if the result exceeds the byte budget re-encode at qualities
90, 85, 80, 75 until the size fits or the qualities are exhausted.
`enc img q` models `img.save(buf, format="JPEG", optimize=True,
quality=q)` followed by reading the buffer. -/
def optimise_core (enc : Img → Nat → List Nat) (img0 : Img) : List Nat :=
  let img := capDim img0
  (qualityLoop (enc img) (enc img 95) 90).1

/-- The external library operations `optimise_image` relies on:
`b64decode` is `base64.b64decode` (raises on invalid input, hence
`Option`), `openImage` is `PIL.Image.open` on raw bytes (raises on
undecodable input), `encode` is JPEG re-encoding at a given quality. -/
structure PIL where
  b64decode : String → Option (List Nat)
  openImage : List Nat → Option Img
  encode : Img → Nat → List Nat

/-- The `image_data` argument of `optimise_image`: a data-URL/base64
string on the camera path, a file object's raw bytes on the upload
path. -/
inductive ImgData where
  | str (s : String)
  | file (bytes : List Nat)
deriving DecidableEq

/-- `optimise_image(image_data, is_base64)` from `src/app.py` lines
105-155.  On the base64 path the code strips a data-URL header by
`image_data.split(",")[1]` (the text between the first and second
comma) before decoding; failures of decoding or opening surface as the
re-raised `Image optimization failed` exception, modelled by
`Except.error`.  A `str`/`file` payload mismatching the flag would be a
Python type error at runtime and is modelled as an error as well. -/
def optimise_image (pil : PIL) (image_data : ImgData) (is_base64 : Bool) :
    Except String (List Nat) :=
  match is_base64, image_data with
  | true, ImgData.str s =>
    let stripped := if s.contains ',' then (s.splitOn ",").getD 1 "" else s
    match pil.b64decode stripped with
    | none => Except.error "Image optimization failed: invalid base64"
    | some raw =>
      match pil.openImage raw with
      | none => Except.error "Image optimization failed: cannot identify image file"
      | some img => Except.ok (optimise_core pil.encode img)
  | false, ImgData.file bytes =>
    match pil.openImage bytes with
    | none => Except.error "Image optimization failed: cannot identify image file"
    | some img => Except.ok (optimise_core pil.encode img)
  | _, _ => Except.error "Image optimization failed: type error"

/-- The standard base64 alphabet used by `base64.b64encode`. -/
def b64Alphabet : String :=
  "ABCDEFGHIJKLMNOPQRSTUVWXYZabcdefghijklmnopqrstuvwxyz0123456789+/"

/-- The base64 character for a 6-bit value. -/
def b64Char (n : Nat) : Char := b64Alphabet.toList.getD n 'A'

/-- `base64.b64encode` on a byte string, three input bytes per four
output characters, `=`-padded. -/
def b64encodeChars : List Nat → List Char
  | [] => []
  | [a] => [b64Char (a / 4 % 64), b64Char (a % 4 * 16), '=', '=']
  | [a, b] =>
    [b64Char (a / 4 % 64), b64Char (a % 4 * 16 + b / 16 % 16),
     b64Char (b % 16 * 4), '=']
  | a :: b :: c :: rest =>
    b64Char (a / 4 % 64) :: b64Char (a % 4 * 16 + b / 16 % 16) ::
    b64Char (b % 16 * 4 + c / 64 % 4) :: b64Char (c % 64) ::
    b64encodeChars rest

/-- `base64.b64encode(image_bytes).decode()` as a string. -/
def b64encode (bytes : List Nat) : String := String.mk (b64encodeChars bytes)

/-- The `source` object of the image content block sent to the API. -/
structure ImgSource where
  type : String
  media_type : String
  data : String
deriving DecidableEq

/-- One content block of the request message: an image block or a text
block. -/
inductive Block where
  | image (source : ImgSource)
  | text (t : String)
deriving DecidableEq

/-- One chat message: a role and its content blocks. -/
structure Message where
  role : String
  content : List Block
deriving DecidableEq

/-- The request passed to `client.messages.create` in
`process_image_with_claude`.  `temperature` is the float `0.0`,
modelled as a rational. -/
structure Request where
  model : String
  max_tokens : Nat
  temperature : ℚ
  messages : List Message

/-- One block of the API response; the code reads only its `text`
attribute. -/
structure RespBlock where
  text : String
deriving DecidableEq

/-- The API response; the code reads only `response.content`. -/
structure Response where
  content : List RespBlock
deriving DecidableEq

/-- The fixed transcription prompt of `process_image_with_claude`. -/
def ocrPrompt : String :=
  "Please accurately transcribe all text from this image.\nOutput only the transcribed text with no additional commentary.\nPreserve formatting and structure where possible.\nPay special attention to handwriting and use context to ensure accuracy."

/-- The request `process_image_with_claude` builds: the fixed model
name, `max_tokens=4096`, `temperature=0.0`, and one user message whose
content is a base64 image block followed by the text prompt. -/
def mkRequest (image_bytes : List Nat) : Request :=
  { model := "claude-3-sonnet-20240229"
    max_tokens := 4096
    temperature := 0
    messages :=
      [{ role := "user"
         content :=
           [Block.image { type := "base64", media_type := "image/jpeg",
                          data := b64encode image_bytes },
            Block.text ocrPrompt] }] }

/-- `process_image_with_claude(client, image_bytes)` from `src/app.py`
lines 157-194.  `send` models `client.messages.create`; a transport or
API failure is `Except.error` with the exception text.  The whole body
is wrapped in `try/except`, so a failed call — and the `IndexError`
raised by `response.content[0]` on an empty content list — both yield
the `"Error processing image: ..."` string.  The first component of
the result is the list of requests actually sent. -/
def process_image_with_claude (send : Request → Except String Response)
    (image_bytes : List Nat) : List Request × String :=
  let req := mkRequest image_bytes
  match send req with
  | Except.error e => ([req], "Error processing image: " ++ e)
  | Except.ok resp =>
    match resp.content with
    | [] => ([req], "Error processing image: list index out of range")
    | blk :: _ => ([req], blk.text)

/-- One element of the generated Word document, in order of
insertion. -/
inductive DocElem where
  | heading (level : Nat) (text : String)
  | para (text : String)
  | pageBreak
deriving DecidableEq

/-- The enumerated loop body of `create_docx`: Python's
`enumerate(text_list, start=1)` with `total = len(text_list)`; a page
break is added while `i < total`. -/
def docxBody (total : Nat) : Nat → List String → List DocElem
  | _, [] => []
  | i, t :: rest =>
    DocElem.heading 1 ("Image " ++ toString i) :: DocElem.para t ::
      (if i < total then [DocElem.pageBreak] else []) ++ docxBody total (i + 1) rest

/-- `create_docx(text_list)` from `src/app.py` lines 196-210, as the
sequence of document elements inserted (the temp-file save is not
modelled). -/
def create_docx (texts : List String) : List DocElem :=
  DocElem.heading 0 "Extracted Text from Images" :: docxBody texts.length 1 texts

/-- An observable event of the Extract Text handler: an API request for
the i-th image, the rendering of the i-th transcription, or the final
offer of the Word download. -/
inductive Ev where
  | apiRequest (i : Nat) (req : Request)
  | renderText (i : Nat) (t : String)
  | offerDoc (elems : List DocElem)

/-- The per-image loop of the Extract Text handler (`src/app.py` lines
390-398): for each stored byte string in order, call
`process_image_with_claude` and render the result.  Returns the event
trace and the accumulated `texts` list. -/
def extractLoop (send : Request → Except String Response) :
    Nat → List (List Nat) → List Ev × List String
  | _, [] => ([], [])
  | i, d :: rest =>
    let pr := process_image_with_claude send d
    let rest' := extractLoop send (i + 1) rest
    (pr.1.map (Ev.apiRequest i) ++ Ev.renderText i pr.2 :: rest'.1,
     pr.2 :: rest'.2)

/-- The Extract Text handler (`src/app.py` lines 384-411): process the
stored images in order, then, when any text was produced, build the
docx from all texts and offer the download. -/
def extractText (send : Request → Except String Response)
    (datas : List (List Nat)) : List Ev :=
  let p := extractLoop send 0 datas
  p.1 ++ (if p.2 = [] then [] else [Ev.offerDoc (create_docx p.2)])

/-- One entry of `st.session_state["images"]`: the optimised bytes and
the acquisition method (the upload path also stores the file object,
irrelevant to the camera-path claim). -/
structure Entry where
  data : List Nat
  method : String
deriving DecidableEq

/-- The camera-path append (`src/app.py` lines 346-347): the optimised
bytes are appended only when they are not already among the stored
`"data"` fields. -/
def cameraAdd (images : List Entry) (optimised : List Nat) : List Entry :=
  if optimised ∈ images.map Entry.data then images
  else images ++ [{ data := optimised, method := "camera" }]

/-! ### Specification-side definitions

These follow the wording of the spec (quality-only linear search, page
break after every entry except the last, strictly sequential trace);
the theorems below compare them with the embedded code. -/

/-- The qualities `optimise_image` may encode at: 95 first, then the
loop's 90 down to 75 in steps of 5. -/
def triedQualities : List Nat := [95, 90, 85, 80, 75]

/-- Spec-side description of the quality search: the first quality in
the list whose encoding fits the byte budget, defaulting to 75 (the
last quality the loop tries) when none fits. -/
def firstFitQuality (e : Nat → List Nat) : List Nat → Nat
  | [] => 75
  | q :: qs => if (e q).length ≤ target then q else firstFitQuality e qs

/-- Spec-side document assembly: concatenate the per-image blocks with
a page break after every block except the last. -/
def joinWithBreaks : List (List DocElem) → List DocElem
  | [] => []
  | [b] => b
  | b :: bs => b ++ DocElem.pageBreak :: joinWithBreaks bs

/-- Spec-side description of the Extract Text trace: for the i-th
stored byte string, in list order, one API request carrying the built
payload followed by the rendering of its transcription; after all
images, the offer of the combined document. -/
def specTrace (send : Request → Except String Response)
    (datas : List (List Nat)) : List Ev :=
  (datas.enum.map fun p =>
    [Ev.apiRequest p.1 (mkRequest p.2),
     Ev.renderText p.1 (process_image_with_claude send p.2).2]).flatten ++
  [Ev.offerDoc (create_docx
    (datas.map fun d => (process_image_with_claude send d).2))]

/-! ### Concrete instances for witnesses and counterexamples -/

/-- An API stub that always fails with a fixed transport error. -/
def sendFail : Request → Except String Response :=
  fun _ => Except.error "boom"

/-- An API stub that always succeeds with one content block. -/
def sendOkOne : Request → Except String Response :=
  fun _ => Except.ok { content := [{ text := "hello" }] }

/-- An API stub that succeeds with an empty content list. -/
def sendOkEmpty : Request → Except String Response :=
  fun _ => Except.ok { content := [] }

/-- A JPEG encoder whose output is 6 MiB at every quality. -/
def encBig : Img → Nat → List Nat :=
  fun _ _ => List.replicate (6 * 1024 * 1024) 0

/-- A PIL stub that opens every byte string as a 100x100 image and
encodes with `encBig`. -/
def pilBig : PIL :=
  { b64decode := fun _ => some []
    openImage := fun _ => some { width := 100, height := 100 }
    encode := encBig }

/-- A JPEG encoder whose output at quality `q` is `target + q + 1`
bytes: over budget at every quality, and distinguishable per
quality. -/
def encGrow : Img → Nat → List Nat :=
  fun _ q => List.replicate (target + q + 1) 0

/-- A small deterministic PIL stub. -/
def pilTest : PIL :=
  { b64decode := fun _ => some []
    openImage := fun _ => some { width := 1, height := 1 }
    encode := fun _ _ => [0] }

/-! ### Helper lemmas -/

/-- The loop exits immediately when the buffer already fits. -/
lemma qualityLoop_halt_le (enc : Nat → List Nat) (buf : List Nat) (q : Nat)
    (h : buf.length ≤ target) : qualityLoop enc buf q = (buf, 0) := by
  unfold qualityLoop
  rw [dif_neg]
  intro hc
  exact absurd hc.1 (Nat.not_lt.mpr h)

/-- The loop exits immediately when the quality has fallen below 75. -/
lemma qualityLoop_halt_q (enc : Nat → List Nat) (buf : List Nat) (q : Nat)
    (h : q < 75) : qualityLoop enc buf q = (buf, 0) := by
  unfold qualityLoop
  rw [dif_neg]
  intro hc
  exact absurd hc.2 (Nat.not_le.mpr h)

/-- One iteration of the loop body. -/
lemma qualityLoop_step (enc : Nat → List Nat) (buf : List Nat) (q : Nat)
    (h1 : target < buf.length) (h2 : 75 ≤ q) :
    qualityLoop enc buf q =
      ((qualityLoop enc (enc q) (q - 5)).1,
       (qualityLoop enc (enc q) (q - 5)).2 + 1) := by
  conv_lhs => unfold qualityLoop
  rw [dif_pos ⟨h1, h2⟩]

/-- The compression body realises the quality-only linear search of the
spec: the result is the encoding of the capped image at the first
quality among 95, 90, 85, 80, 75 whose output fits the budget, at 75
when none fits. -/
lemma optimise_core_firstFit (enc : Img → Nat → List Nat) (img : Img) :
    optimise_core enc img =
      enc (capDim img)
        (firstFitQuality (enc (capDim img)) triedQualities) := by
  unfold optimise_core triedQualities
  change (qualityLoop (enc (capDim img)) (enc (capDim img) 95) 90).1 = _
  by_cases h95 : (enc (capDim img) 95).length ≤ target
  · rw [qualityLoop_halt_le _ _ _ h95]
    simp [firstFitQuality, h95]
  · rw [qualityLoop_step _ _ _ (Nat.not_le.mp h95) (by norm_num)]
    by_cases h90 : (enc (capDim img) 90).length ≤ target
    · rw [show (90 : Nat) - 5 = 85 by norm_num,
        qualityLoop_halt_le _ _ _ h90]
      simp [firstFitQuality, h95, h90]
    · rw [show (90 : Nat) - 5 = 85 by norm_num,
        qualityLoop_step _ _ _ (Nat.not_le.mp h90) (by norm_num)]
      by_cases h85 : (enc (capDim img) 85).length ≤ target
      · rw [show (85 : Nat) - 5 = 80 by norm_num,
          qualityLoop_halt_le _ _ _ h85]
        simp [firstFitQuality, h95, h90, h85]
      · rw [show (85 : Nat) - 5 = 80 by norm_num,
          qualityLoop_step _ _ _ (Nat.not_le.mp h85) (by norm_num)]
        by_cases h80 : (enc (capDim img) 80).length ≤ target
        · rw [show (80 : Nat) - 5 = 75 by norm_num,
            qualityLoop_halt_le _ _ _ h80]
          simp [firstFitQuality, h95, h90, h85, h80]
        · rw [show (80 : Nat) - 5 = 75 by norm_num,
            qualityLoop_step _ _ _ (Nat.not_le.mp h80) (by norm_num)]
          rw [show (75 : Nat) - 5 = 70 by norm_num,
            qualityLoop_halt_q _ _ _ (by norm_num)]
          simp [firstFitQuality, h95, h90, h85, h80]

/-- The first fitting quality is one of the tried qualities. -/
lemma firstFitQuality_mem (e : Nat → List Nat) :
    firstFitQuality e triedQualities ∈ triedQualities := by
  simp only [triedQualities, firstFitQuality]
  repeat' split
  all_goals simp

/-- The first fitting quality either fits or is the final fallback
75. -/
lemma firstFitQuality_fits (e : Nat → List Nat) :
    (e (firstFitQuality e triedQualities)).length ≤ target ∨
      firstFitQuality e triedQualities = 75 := by
  simp only [triedQualities, firstFitQuality]
  repeat' split
  all_goals simp_all

/-- Bound on the number of loop-body iterations, for any starting
quality. -/
lemma qualityLoop_count_le (enc : Nat → List Nat) (q : Nat) :
    ∀ buf, (qualityLoop enc buf q).2 ≤ q / 5 - 14 := by
  induction q using Nat.strong_induction_on with
  | _ q ih =>
    intro buf
    by_cases hc : target < buf.length ∧ 75 ≤ q
    · rw [qualityLoop_step enc buf q hc.1 hc.2]
      have h5 : q - 5 < q := by omega
      have hrec := ih (q - 5) h5 (enc q)
      omega
    · rcases Nat.lt_or_ge q 75 with h | h
      · rw [qualityLoop_halt_q enc buf q h]
        exact Nat.zero_le _
      · have hlen : buf.length ≤ target := by
          by_contra hlen
          exact hc ⟨Nat.lt_of_not_le hlen, h⟩
        rw [qualityLoop_halt_le enc buf q hlen]
        exact Nat.zero_le _

/-- `process_image_with_claude` always sends exactly the one request it
builds. -/
lemma process_fst (send : Request → Except String Response)
    (bytes : List Nat) :
    (process_image_with_claude send bytes).1 = [mkRequest bytes] := by
  simp only [process_image_with_claude]
  split
  · rfl
  · split <;> rfl

/-- On a successful call with nonempty content, the result is the first
block's text. -/
lemma process_ok (send : Request → Except String Response)
    (bytes : List Nat) (resp : Response) (blk : RespBlock)
    (rest : List RespBlock)
    (h : send (mkRequest bytes) = Except.ok resp)
    (hc : resp.content = blk :: rest) :
    (process_image_with_claude send bytes).2 = blk.text := by
  simp only [process_image_with_claude, h, hc]

/-- On a failed call, the result is the error string built from the
exception text. -/
lemma process_err (send : Request → Except String Response)
    (bytes : List Nat) (e : String)
    (h : send (mkRequest bytes) = Except.error e) :
    (process_image_with_claude send bytes).2 =
      "Error processing image: " ++ e := by
  simp only [process_image_with_claude, h]

/-- On a successful call with empty content, indexing raises and the
handler returns the error string for the `IndexError`. -/
lemma process_empty (send : Request → Except String Response)
    (bytes : List Nat) (resp : Response)
    (h : send (mkRequest bytes) = Except.ok resp)
    (hc : resp.content = []) :
    (process_image_with_claude send bytes).2 =
      "Error processing image: " ++ "list index out of range" := by
  simp only [process_image_with_claude, h, hc]
  rfl

/-- Closed form of the per-image loop: the events are, per image in
list order, one request then one rendering, and the texts are the
per-image results in order. -/
lemma extractLoop_eq (send : Request → Except String Response)
    (datas : List (List Nat)) : ∀ i,
    extractLoop send i datas =
      (((datas.enumFrom i).map fun p =>
          [Ev.apiRequest p.1 (mkRequest p.2),
           Ev.renderText p.1 (process_image_with_claude send p.2).2]).flatten,
       datas.map fun d => (process_image_with_claude send d).2) := by
  induction datas with
  | nil => intro i; rfl
  | cons d rest ih =>
    intro i
    simp [extractLoop, process_fst, ih (i + 1), List.enumFrom]

/-- Closed form of `docxBody`, started at counter `k + 1` with total
`k + ts.length`: the per-image blocks joined with page breaks. -/
lemma docxBody_eq (ts : List String) : ∀ k : Nat,
    docxBody (k + ts.length) (k + 1) ts =
      joinWithBreaks ((ts.enumFrom (k + 1)).map fun p =>
        [DocElem.heading 1 ("Image " ++ toString p.1), DocElem.para p.2]) := by
  induction ts with
  | nil => intro k; rfl
  | cons t rest ih =>
    intro k
    rw [show k + (t :: rest).length = k + 1 + rest.length by
      simp [List.length_cons]; omega]
    cases rest with
    | nil => simp [docxBody, joinWithBreaks, List.enumFrom]
    | cons r rs =>
      have hrec := ih (k + 1)
      rw [show k + 1 + (r :: rs).length = (k + 1) + (r :: rs).length from rfl]
        at hrec
      simp only [docxBody, List.enumFrom, List.map_cons, joinWithBreaks,
        List.length_cons] at hrec ⊢
      rw [if_pos (by omega)]
      rw [hrec]
      simp

/-! ### Claim theorems -/

/-- C1, counterexample: the claim that every output of `optimise_image`
is under the 5 MiB budget fails.  With an encoder producing 6 MiB at
every quality (possible for a large noisy image, since the loop never
re-encodes below quality 75 and never downscales further), the function
returns a 6 MiB byte string. -/
theorem c1_over_budget_counterexample :
    (optimise_image pilBig (ImgData.file []) false).map List.length =
        Except.ok (6 * 1024 * 1024) ∧
      target < 6 * 1024 * 1024 := by
  have h : optimise_image pilBig (ImgData.file []) false =
      Except.ok (optimise_core encBig { width := 100, height := 100 }) := rfl
  rw [h, optimise_core_firstFit]
  constructor
  · simp only [Except.map, encBig, List.length_replicate]
  · norm_num [target]

/-- C1, amended: the output is always a JPEG encoding of the capped
image at one of the qualities 95, 90, 85, 80, 75, and either its size
is at most (not strictly under) the 5 MiB budget or it is the
quality-75 encoding, returned even when it still exceeds the budget. -/
theorem optimise_image_best_effort (enc : Img → Nat → List Nat) (img : Img) :
    ∃ q, q ∈ triedQualities ∧
      optimise_core enc img = enc (capDim img) q ∧
      ((optimise_core enc img).length ≤ target ∨ q = 75) := by
  refine ⟨firstFitQuality (enc (capDim img)) triedQualities,
    firstFitQuality_mem _, optimise_core_firstFit enc img, ?_⟩
  rw [optimise_core_firstFit]
  exact firstFitQuality_fits _

/-- C2, counterexample: the loop does not run "until the encoded size
fits under the target byte budget", and it never downscales in
response to the budget: with an encoder over budget at every quality,
a 100x100 image (left untouched by the one-time 4096 cap) yields the
quality-75 encoding, still over budget. -/
theorem c2_no_fit_counterexample :
    optimise_core encGrow { width := 100, height := 100 } =
        List.replicate (target + 76) 0 ∧
      target < (optimise_core encGrow { width := 100, height := 100 }).length ∧
      capDim { width := 100, height := 100 } = { width := 100, height := 100 } := by
  have hcap : capDim { width := 100, height := 100 } =
      { width := 100, height := 100 } := by
    simp [capDim, max_dim]
  have hq : ∀ q : Nat, ¬ (target + q + 1 ≤ target) := fun q => by omega
  have hfit : firstFitQuality
      (encGrow { width := 100, height := 100 }) triedQualities = 75 := by
    simp [firstFitQuality, triedQualities, encGrow, hq]
  have hres : optimise_core encGrow { width := 100, height := 100 } =
      List.replicate (target + 76) 0 := by
    rw [optimise_core_firstFit, hcap, hfit]
    simp only [encGrow]
  refine ⟨hres, ?_, hcap⟩
  rw [hres]
  simp only [List.length_replicate]
  omega

/-- C2, amended: the adaptive compression is a linear search over JPEG
quality only — 95 first, then 90 down to 75 in steps of 5, stopping at
the first quality whose output is at most the budget and falling back
to 75 — while pixel dimensions are reduced a single time before the
search, only to cap them at 4096, independently of the byte budget. -/
theorem optimise_image_quality_search (enc : Img → Nat → List Nat)
    (img : Img) :
    optimise_core enc img =
      enc (capDim img) (firstFitQuality (enc (capDim img)) triedQualities) :=
  optimise_core_firstFit enc img

/-- C3: the quality-lowering loop of `optimise_image`, entered with
quality 90, decreasing by 5 per iteration and bounded below by 75,
executes its body at most 4 times for every encoder and every starting
buffer. -/
theorem quality_loop_iterations (enc : Nat → List Nat) (buf : List Nat) :
    (qualityLoop enc buf 90).2 ≤ 4 := by
  have h := qualityLoop_count_le enc 90 buf
  omega

/-- C4: on a non-empty image list, the Extract Text handler produces
the strictly sequential trace: for each stored byte string in list
order, one API request carrying its base64 payload followed by the
rendering of its transcription, and only after the last image the
offer of the combined Word document. -/
theorem extractText_sequential (send : Request → Except String Response)
    (datas : List (List Nat)) (h : datas ≠ []) :
    extractText send datas = specTrace send datas := by
  simp only [extractText, specTrace, extractLoop_eq send datas 0, List.enum]
  rw [if_neg (by simpa using h)]

/-- Witness for C4 at a one-element image list. -/
theorem extractText_sequential_witness :
    extractText sendFail [[1]] = specTrace sendFail [[1]] :=
  extractText_sequential sendFail [[1]] (by decide)

/-- C5: `create_docx` produces the top-level title heading followed by,
for the i-th text (counting from 1) in order, a level-1 heading
"Image i" and a paragraph with the text, with a page break after every
entry except the last. -/
theorem create_docx_structure (texts : List String) :
    create_docx texts =
      DocElem.heading 0 "Extracted Text from Images" ::
        joinWithBreaks ((texts.enumFrom 1).map fun p =>
          [DocElem.heading 1 ("Image " ++ toString p.1), DocElem.para p.2]) := by
  unfold create_docx
  rw [show docxBody texts.length 1 texts =
      joinWithBreaks ((texts.enumFrom 1).map fun p =>
        [DocElem.heading 1 ("Image " ++ toString p.1), DocElem.para p.2]) by
    simpa using docxBody_eq texts 0]

/-- C6: `process_image_with_claude` sends exactly one request, whose
sole message holds one base64 image block (media type `image/jpeg`,
data the base64 encoding of the input bytes) plus the fixed text
prompt, and on a successful response with nonempty content it returns
the text of the first content block. -/
theorem process_request_payload (send : Request → Except String Response)
    (bytes : List Nat) :
    (process_image_with_claude send bytes).1 = [mkRequest bytes] ∧
    (mkRequest bytes).messages =
      [{ role := "user"
         content := [Block.image { type := "base64"
                                   media_type := "image/jpeg"
                                   data := b64encode bytes },
                     Block.text ocrPrompt] }] ∧
    ∀ resp blk rest, send (mkRequest bytes) = Except.ok resp →
      resp.content = blk :: rest →
      (process_image_with_claude send bytes).2 = blk.text :=
  ⟨process_fst send bytes, rfl,
   fun resp blk rest h hc => process_ok send bytes resp blk rest h hc⟩

/-- Witness for C6 with an API stub returning one block. -/
theorem process_request_payload_witness :
    (process_image_with_claude sendOkOne [1]).2 = "hello" :=
  (process_request_payload sendOkOne [1]).2.2
    { content := [{ text := "hello" }] } { text := "hello" } [] rfl rfl

/-- C7: `optimise_image` is deterministic — two runs on equal input
data with the same `is_base64` flag (and the same library behaviour)
return equal results; the embedding is a pure function of its
arguments, reflecting that the source reads and writes no state
outside the function. -/
theorem optimise_image_deterministic (pil : PIL) (d1 d2 : ImgData)
    (f1 f2 : Bool) (hd : d1 = d2) (hf : f1 = f2) :
    optimise_image pil d1 f1 = optimise_image pil d2 f2 := by
  rw [hd, hf]

/-- Witness for C7 at a concrete input. -/
theorem optimise_image_deterministic_witness :
    optimise_image pilTest (ImgData.file [7]) false =
      optimise_image pilTest (ImgData.file [7]) false :=
  optimise_image_deterministic pilTest _ _ _ _ rfl rfl

/-- C8: `process_image_with_claude` never propagates a failure: a
failed API call returns the error string built from the exception
text, and a successful call with an empty content list (whose indexing
raises `IndexError`) returns the corresponding error string; both
begin with "Error processing image: ". -/
theorem process_error_results (send : Request → Except String Response)
    (bytes : List Nat) :
    (∀ e, send (mkRequest bytes) = Except.error e →
      (process_image_with_claude send bytes).2 =
        "Error processing image: " ++ e) ∧
    (∀ resp, send (mkRequest bytes) = Except.ok resp → resp.content = [] →
      (process_image_with_claude send bytes).2 =
        "Error processing image: " ++ "list index out of range") :=
  ⟨fun e h => process_err send bytes e h,
   fun resp h hc => process_empty send bytes resp h hc⟩

/-- Witness for C8 with an always-failing API stub. -/
theorem process_error_results_witness :
    (process_image_with_claude sendFail [1]).2 =
      "Error processing image: " ++ "boom" :=
  (process_error_results sendFail [1]).1 "boom" rfl

/-- C9: whenever a dimension exceeds 4096, the cap step makes both
output dimensions at most 4096, the smaller one the truncated scaled
value; and that computed dimension can be 0 (for aspect ratios beyond
4096:1), the value a subsequent resize requires to be at least 1. -/
theorem capDim_caps_and_can_vanish :
    (∀ img : Img, img.width > max_dim ∨ img.height > max_dim →
      (capDim img).width ≤ max_dim ∧ (capDim img).height ≤ max_dim ∧
      (img.height ≤ img.width →
        capDim img = { width := max_dim
                       height := img.height * max_dim / img.width }) ∧
      (img.width < img.height →
        capDim img = { width := img.width * max_dim / img.height
                       height := max_dim })) ∧
    ((capDim { width := 4096 * 4097, height := 1 }).height = 0 ∧
      4096 * 4097 > max_dim) := by
  constructor
  · intro img h
    unfold capDim
    rw [if_pos h]
    by_cases hwh : img.height ≤ img.width
    · have hw : 0 < img.width := by
        rcases h with h | h <;> simp [max_dim] at h <;> omega
      rw [if_pos hwh]
      refine ⟨le_refl _, ?_, fun _ => rfl, fun hlt => absurd hlt (by omega)⟩
      calc img.height * max_dim / img.width
          ≤ img.width * max_dim / img.width :=
            Nat.div_le_div_right (Nat.mul_le_mul_right _ hwh)
        _ = max_dim := Nat.mul_div_cancel_left _ hw
    · have hh : 0 < img.height := by omega
      rw [if_neg hwh]
      refine ⟨?_, le_refl _, fun hle => absurd hle hwh, fun _ => rfl⟩
      calc img.width * max_dim / img.height
          ≤ img.height * max_dim / img.height :=
            Nat.div_le_div_right (Nat.mul_le_mul_right _ (by omega))
        _ = max_dim := Nat.mul_div_cancel_left _ hh
  · constructor
    · norm_num [capDim, max_dim]
    · norm_num [max_dim]

/-- Witness for C9 at a 5000x3000 image. -/
theorem capDim_caps_and_can_vanish_witness :
    (capDim { width := 5000, height := 3000 }).width ≤ max_dim ∧
      (capDim { width := 5000, height := 3000 }).height ≤ max_dim :=
  ⟨(capDim_caps_and_can_vanish.1 { width := 5000, height := 3000 }
      (Or.inl (by norm_num [max_dim]))).1,
   (capDim_caps_and_can_vanish.1 { width := 5000, height := 3000 }
      (Or.inl (by norm_num [max_dim]))).2.1⟩

/-- C10: the camera path appends the optimised bytes exactly when they
differ from the `data` of every stored entry, so it never creates two
entries with equal data: distinctness of the stored `data` fields is
preserved. -/
theorem cameraAdd_no_dup (images : List Entry) (optimised : List Nat)
    (h : (images.map Entry.data).Nodup) :
    ((cameraAdd images optimised).map Entry.data).Nodup ∧
    (optimised ∈ images.map Entry.data → cameraAdd images optimised = images) ∧
    (optimised ∉ images.map Entry.data →
      cameraAdd images optimised =
        images ++ [{ data := optimised, method := "camera" }]) := by
  refine ⟨?_, fun hm => by simp [cameraAdd, hm],
    fun hm => by simp [cameraAdd, hm]⟩
  by_cases hm : optimised ∈ images.map Entry.data
  · simpa [cameraAdd, hm] using h
  · simp [cameraAdd, hm, List.nodup_append, h]

/-- Witness for C10: equal bytes are not appended a second time. -/
theorem cameraAdd_no_dup_witness :
    cameraAdd [{ data := [1], method := "upload" }] [1] =
      [{ data := [1], method := "upload" }] :=
  (cameraAdd_no_dup [{ data := [1], method := "upload" }] [1]
    (by decide)).2.1 (by decide)

end ClaudeOCR
